import Mathlib

/-!
Verification of the BallTales MLB agent core against its specification.

The development shallowly embeds the failure-handling core of the repository:
the sandboxed code runner (`src/backend/src/api/views/onboarding/repl.py`),
the completion-service adapter (`src/backend/src/api/gemini_solid.py`), and
the intent/plan/execution pipeline of `src/backend/src/api/agent.py`.
External effects (LLM calls, subprocesses, HTTP) are modelled as oracle
parameters; the control flow around them is translated line by line from the
Python source.  Python exceptions are modelled by `PyResult`; Python values
passed around as JSON-like data are modelled by `Json`.
-/

namespace BallTales

/-- JSON-like Python values (dict/list/str/int/bool/None), the data shuttled
between the agent's steps. -/
inductive Json where
  | null
  | bool (b : Bool)
  | num (n : Int)
  | str (s : String)
  | arr (elems : List Json)
  | obj (fields : List (String × Json))
deriving Repr

/-- Python truthiness of a JSON-like value (`if not x`). -/
def Json.truthy : Json → Bool
  | .null => false
  | .bool b => b
  | .num n => n != 0
  | .str s => s != ""
  | .arr xs => !xs.isEmpty
  | .obj kvs => !kvs.isEmpty

/-- `d.get(k)` on a Python dict (`None` ↦ `none`); on a non-dict the caller
would get an `AttributeError`, which call sites handle explicitly. -/
def jget (j : Json) (k : String) : Option Json :=
  match j with
  | .obj kvs => List.lookup k kvs
  | _ => none

/-- `d[k] = v` on a Python dict: overwrite an existing key, else append. -/
def setKey (m : List (String × Json)) (k : String) (v : Json) : List (String × Json) :=
  match m with
  | [] => [(k, v)]
  | (k', v') :: rest => if k' = k then (k, v) :: rest else (k', v') :: setKey rest k v

/-- Outcome of a Python expression: a value, or a raised exception (carrying
`str(e)`). -/
inductive PyResult (α : Type) where
  | ok (v : α)
  | exc (msg : String)
deriving Repr, DecidableEq

instance : Monad PyResult where
  pure := .ok
  bind := fun r f => match r with
    | .ok v => f v
    | .exc e => .exc e

/-! ## Character-level models of the Python string operations used by the
source (`in`, `str.replace`, `str.split`, `str.strip`, `str.join`).  They are
written by structural recursion so that concrete instances evaluate inside
the kernel. -/

/-- `pat` is a leading segment of `l` (`str.startswith`). -/
def isPrefixList : List Char → List Char → Bool
  | [], _ => true
  | _ :: _, [] => false
  | p :: ps, c :: cs => p == c && isPrefixList ps cs

/-- Python `pat in s` over the underlying characters. -/
def containsSubList (pat : List Char) : List Char → Bool
  | [] => pat.isEmpty
  | c :: rest => isPrefixList pat (c :: rest) || containsSubList pat rest

/-- Python `pat in s`. -/
def pyContains (s pat : String) : Bool := containsSubList pat.data s.data

/-- Fuel-driven core of `str.replace`: leftmost non-overlapping matches of a
non-empty `pat` are replaced by `rep`. -/
def replaceFuel (pat rep : List Char) : Nat → List Char → List Char
  | 0, l => l
  | _ + 1, [] => []
  | fuel + 1, c :: rest =>
    if !pat.isEmpty && isPrefixList pat (c :: rest) then
      rep ++ replaceFuel pat rep fuel ((c :: rest).drop pat.length)
    else
      c :: replaceFuel pat rep fuel rest

/-- Python `s.replace(pat, rep)` (for the non-empty patterns the source uses). -/
def pyReplace (s pat rep : String) : String :=
  String.mk (replaceFuel pat.data rep.data s.data.length s.data)

/-- Python `s.split(sep)` for a one-character separator. -/
def splitOnCharL (sep : Char) : List Char → List (List Char)
  | [] => [[]]
  | c :: rest =>
    match splitOnCharL sep rest with
    | [] => [[]]
    | cur :: more => if c == sep then [] :: cur :: more else (c :: cur) :: more

/-- Python `s.split("\n")`. -/
def splitOnNl : List Char → List (List Char) := splitOnCharL '\n'

/-- Python `"\n".join(lines)`. -/
def joinNl : List (List Char) → List Char
  | [] => []
  | [l] => l
  | l :: rest => l ++ '\n' :: joinNl rest

/-- Whitespace characters honoured by the `str.strip` family. -/
def isPyWs (c : Char) : Bool := c == ' ' || c == '\n' || c == '\t' || c == '\r'

/-- Python `s.lstrip()` on characters. -/
def lstripL (l : List Char) : List Char := l.dropWhile isPyWs

/-- Python `s.rstrip()` on characters. -/
def rstripL (l : List Char) : List Char := ((l.reverse).dropWhile isPyWs).reverse

/-- Python `s.strip()` on characters. -/
def stripL (l : List Char) : List Char := rstripL (lstripL l)

/-- Python `s.strip()`. -/
def pyStrip (s : String) : String := String.mk (stripL s.data)

/-- Python `s.lower()` (ASCII, as used on short tag strings). -/
def pyLower (s : String) : String := String.mk (s.data.map Char.toLower)

/-- Python `s.endswith(c)` for a single character. -/
def endsWithChar (l : List Char) (c : Char) : Bool :=
  match l.getLast? with
  | some d => d == c
  | none => false

/-! ## Sandboxed Code Runner (`repl.py`, `MLBPythonREPL.__call__`)

The subprocess launch is modelled by its observable outcome; `json.loads`
is modelled by an oracle returning `none` on a `JSONDecodeError`.  The
control flow — result-code dispatch, stderr cleaning, and the fixed error
records — is the source's, line by line. -/

/-- Observable outcome of `subprocess.run(["python3", code_file_path], ...)`:
either the process completed with a return code and captured streams, or it
exceeded the timeout (`subprocess.TimeoutExpired`). -/
inductive ProcOutcome where
  | completed (returncode : Int) (stdout : String) (stderr : String)
  | timedOut
deriving Repr

/-- The fixed result for a zero-exit run whose stdout is not parseable JSON. -/
def parseFailureResult : Json :=
  .obj [("status", .str "error"), ("logs", .arr []),
        ("error", .str "Failed to parse execution result"), ("output", .null)]

/-- The fixed result for a timed-out run. -/
def timeoutResult (timeout : Nat) : Json :=
  .obj [("status", .str "error"), ("logs", .arr []),
        ("error", .str ("Execution timed out after " ++ toString timeout ++ " seconds")),
        ("output", .null)]

/-- Per-line replacement of the temp-file path in stderr:
`"\n".join(line.replace(code_file_path, "<analysis>") for line in stderr.split("\n"))`. -/
def cleanStderr (codeFilePath stderr : String) : String :=
  String.mk (joinNl ((splitOnNl stderr.data).map
    (fun line => replaceFuel codeFilePath.data "<analysis>".data line.length line)))

/-- The result for a non-zero-exit run: the cleaned stderr text. -/
def stderrResult (errorMsg : String) : Json :=
  .obj [("status", .str "error"), ("logs", .arr []),
        ("error", .str errorMsg), ("output", .null)]

/-- `MLBPythonREPL.__call__`, given the subprocess outcome and a `json.loads`
oracle.  Every branch of the source resolves to a returned record. -/
def MLBPythonREPL_call (timeout : Nat) (jsonLoads : String → Option Json)
    (codeFilePath : String) (outcome : ProcOutcome) : Json :=
  match outcome with
  | .timedOut => timeoutResult timeout
  | .completed rc stdout stderr =>
    if rc = 0 then
      match jsonLoads (pyStrip stdout) with
      | some j => j
      | none => parseFailureResult
    else
      stderrResult (cleanStderr codeFilePath stderr)

/-! ## Completion Service Adapter (`gemini_solid.py`, `GeminiSolid`)

The per-model API call is an oracle `Nat → PyResult String` giving, for each
hierarchy index, either the returned text or the raised exception's
`str(e)`.  The `tenacity` decorator is modelled by its documented semantics:
on an exception it evaluates the user-supplied `retry` callable on the
current `RetryCallState` and retries only when that callable returns true,
up to `stop_after_attempt` attempts. -/

/-- The ordered model hierarchy `GEMINI_MODELS`. -/
def GEMINI_MODELS : List String :=
  ["gemini-1.5-flash-8b", "gemini-1.5-flash", "gemini-2.0-flash-exp", "gemini-1.5-pro"]

def numModels : Nat := GEMINI_MODELS.length

/-- Python objects that reach the `retry=` lambda: tenacity always passes the
current `RetryCallState`; the lambda body was evidently written for an
exception object. -/
inductive PyObj where
  | exceptionObj (msg : String)
  | retryCallState
deriving Repr, DecidableEq

/-- Python `isinstance(x, Exception)`. -/
def PyObj.isException : PyObj → Bool
  | .exceptionObj _ => true
  | .retryCallState => false

/-- Python `str(x)` as far as the `"429" in str(x)` test can observe it:
`str` of an exception is its message; `str` of a `RetryCallState` is its
`"<RetryCallState ...>"` repr, which is irrelevant because the `isinstance`
conjunct already fails. -/
def PyObj.pyStr : PyObj → String
  | .exceptionObj m => m
  | .retryCallState => "<RetryCallState>"

/-- The body shared by `GeminiSolid.is_rate_limit_error` and the decorator's
`retry=` lambda: `isinstance(x, Exception) and "429" in str(x)`. -/
def rateLimitPredicate (x : PyObj) : Bool :=
  x.isException && pyContains x.pyStr "429"

/-- `GeminiSolid.is_rate_limit_error`, applied to a caught exception. -/
def is_rate_limit_error (msg : String) : Bool :=
  rateLimitPredicate (.exceptionObj msg)

/-- Tenacity's attempt loop for a deterministic wrapped call: run the call;
on an exception consult the `retry` predicate on the current
`RetryCallState` and, while attempts remain, try again.  Returns the final
outcome together with the number of attempts made.  (Backoff delays —
`wait_exponential(multiplier=1, min=4, max=10)` in the source — only shape
timing and are not part of the value-level semantics.) -/
def tenacityLoop (pred : PyObj → Bool) (f : Unit → PyResult String) :
    Nat → Nat → PyResult String × Nat
  | 0, attempt => (f (), attempt)
  | fuel + 1, attempt =>
    match f () with
    | .ok v => (.ok v, attempt)
    | .exc e =>
      if pred .retryCallState then tenacityLoop pred f fuel (attempt + 1)
      else (.exc e, attempt)

/-- A call through `@retry(stop=stop_after_attempt(maxAttempts), ...)`. -/
def tenacityCall (maxAttempts : Nat) (pred : PyObj → Bool)
    (f : Unit → PyResult String) : PyResult String × Nat :=
  tenacityLoop pred f (maxAttempts - 1) 1

/-- `GeminiSolid.generate_with_fallback` (default `model_name=None` path):
beyond the hierarchy raise `"All models exhausted"`; on a rate-limit
exception below the last model, recurse with the next model index; otherwise
re-raise. -/
def generate_with_fallback (env : Nat → PyResult String) (idx : Nat) : PyResult String :=
  if _h : numModels ≤ idx then .exc "All models exhausted"
  else
    match env idx with
    | .ok t => .ok t
    | .exc e =>
      if is_rate_limit_error e && decide (idx < numModels - 1) then
        generate_with_fallback env (idx + 1)
      else .exc e
termination_by numModels - idx
decreasing_by simp_wf; omega

/-- A hierarchy in which every model call raises a 429 quota error. -/
def all429Env : Nat → PyResult String := fun _ => .exc "429 Resource has been exhausted"

/-! ## Intent Classifier (`agent.py`, `MLBAgent.analyze_intent`)

The LLM call is an oracle `PyResult String` for `result.text`, `json.loads`
an oracle for parsing; the enum coercions, the entity normalisation and the
hard-coded default record are translated from the source.  The string-valued
enums of `models.py` compare equal to their value strings, so they are
modelled by those strings. -/

/-- `d[k] = v` when `d` is known to be a dict (callers subscript dicts). -/
def jsetTop (j : Json) (k : String) (v : Json) : Json :=
  match j with
  | .obj kvs => .obj (setKey kvs k v)
  | _ => j

def INTENT_TYPE_VALUES : List String :=
  ["team_info", "player_info", "game_info", "stats", "standings", "schedule",
   "highlights", "conversation"]

def SPECIFICITY_VALUES : List String := ["general", "specific", "comparative", "analytical"]

def TIMEFRAME_VALUES : List String := ["historical", "current", "upcoming", "season", "career"]

def COMPLEXITY_VALUES : List String := ["simple", "moderate", "complex"]

def COMPARISON_TYPE_VALUES : List String :=
  ["none", "player_vs_player", "team_vs_team", "historical"]

def STAT_FOCUS_VALUES : List String := ["none", "offensive", "defensive", "both"]

def SENTIMENT_VALUES : List String := ["neutral", "positive", "negative"]

/-- `parsed[outer][inner] = SomeStrEnum(parsed[outer][inner])`: a missing key
raises `KeyError`, a value outside the enum domain (or a non-string value)
raises `ValueError`; a member's coercion stores the member, whose string
value is unchanged. -/
def coerceEnumAt (vals : List String) (outer inner : String) (j : Json) : PyResult Json :=
  match jget j outer with
  | some (.obj kvs) =>
    match List.lookup inner kvs with
    | some (.str s) =>
      if vals.contains s then .ok (jsetTop j outer (.obj (setKey kvs inner (.str s))))
      else .exc "ValueError"
    | some _ => .exc "ValueError"
    | none => .exc "KeyError"
  | _ => .exc "KeyError"

/-- `entities[key] = [entities[key]] if entities[key] else []` for a non-list
value. -/
def coerceEntityValue (v : Json) : Json :=
  match v with
  | .arr xs => .arr xs
  | other => if other.truthy then .arr [other] else .arr []

/-- `entities = parsed.get("entities", {}); for key in entities: ...`.  When
the key is absent the fresh `{}` default is iterated (vacuously) and the
record is returned unchanged; when present as a dict, every entry is coerced
to a list in place.  Iterating a non-dict value and indexing it by its own
string keys raises (the agent's response schema always supplies an object
here); an empty list iterates vacuously. -/
def normalizeEntities (j : Json) : PyResult Json :=
  match jget j "entities" with
  | some (.obj kvs) =>
    .ok (jsetTop j "entities" (.obj (kvs.map (fun kv => (kv.1, coerceEntityValue kv.2)))))
  | some (.arr []) => .ok j
  | some _ => .exc "TypeError"
  | none => .ok j

/-- The `try:` body of `analyze_intent`: LLM call, `json.loads`, the eight
enum coercions, then entity normalisation. -/
def analyze_intent_body (llm : PyResult String) (jsonLoads : String → Option Json) :
    PyResult Json := do
  let text ← llm
  let parsed ← match jsonLoads text with
    | some j => PyResult.ok j
    | none => PyResult.exc "JSONDecodeError"
  let j1 ← coerceEnumAt INTENT_TYPE_VALUES "intent" "type" parsed
  let j2 ← coerceEnumAt SPECIFICITY_VALUES "intent" "specificity" j1
  let j3 ← coerceEnumAt TIMEFRAME_VALUES "intent" "timeframe" j2
  let j4 ← coerceEnumAt COMPLEXITY_VALUES "intent" "complexity" j3
  let j5 ← coerceEnumAt TIMEFRAME_VALUES "context" "time_frame" j4
  let j6 ← coerceEnumAt COMPARISON_TYPE_VALUES "context" "comparison_type" j5
  let j7 ← coerceEnumAt STAT_FOCUS_VALUES "context" "stat_focus" j6
  let j8 ← coerceEnumAt SENTIMENT_VALUES "context" "sentiment" j7
  normalizeEntities j8

/-- The hard-coded fallback record returned by `analyze_intent`'s `except`
handler, key for key from the source (enum members written as their string
values). -/
def defaultIntent : Json :=
  .obj [
    ("mlb_query", .bool false),
    ("intent", .obj [
      ("type", .str "conversation"),
      ("description", .str "General conversation"),
      ("specificity", .str "general"),
      ("timeframe", .str "current"),
      ("complexity", .str "simple")]),
    ("entities", .obj [
      ("teams", .arr []), ("players", .arr []), ("dates", .arr []),
      ("stats", .arr []), ("locations", .arr []), ("events", .arr [])]),
    ("context", .obj [
      ("time_frame", .str "current"),
      ("comparison_type", .str "none"),
      ("stat_focus", .str "none"),
      ("sentiment", .str "neutral"),
      ("requires_data", .bool false),
      ("follow_up", .bool false),
      ("data_requirements", .arr [])])]

/-- `MLBAgent.analyze_intent`: any exception in the body yields the default
record. -/
def analyze_intent (llm : PyResult String) (jsonLoads : String → Option Json) : Json :=
  match analyze_intent_body llm jsonLoads with
  | .ok j => j
  | .exc _ => defaultIntent

/-! ## Extraction/Filtering Engine (`agent.py`, `MLBAgent._process_extraction`
and `MLBAgent._apply_filtering`)

`json.dumps` is modelled for the size computation; the two LLM calls, the
sandbox execution and `json.loads` are oracles.  Every failure branch of the
source funnels to `return data`. -/

/-- The escapes `json.dumps` applies that can occur in the agent's payloads
(backslash, then double quote). -/
def escapeJsonStr (s : String) : String :=
  pyReplace (pyReplace s "\\" "\\\\") "\"" "\\\""

mutual

/-- `json.dumps` with its default separators. -/
def dumpJson : Json → String
  | .null => "null"
  | .bool true => "true"
  | .bool false => "false"
  | .num n => toString n
  | .str s => "\"" ++ escapeJsonStr s ++ "\""
  | .arr xs => "[" ++ dumpJsonList xs ++ "]"
  | .obj kvs => "\x7b" ++ dumpJsonObj kvs ++ "\x7d"

def dumpJsonList : List Json → String
  | [] => ""
  | [x] => dumpJson x
  | x :: y :: rest => dumpJson x ++ ", " ++ dumpJsonList (y :: rest)

def dumpJsonObj : List (String × Json) → String
  | [] => ""
  | [(k, v)] => "\"" ++ escapeJsonStr k ++ "\": " ++ dumpJson v
  | (k, v) :: kv :: rest =>
    "\"" ++ escapeJsonStr k ++ "\": " ++ dumpJson v ++ ", " ++ dumpJsonObj (kv :: rest)

end

/-- Python `str(x)` for the scalar values that reach the `else` arm of the
size computation. -/
def pyStrScalar : Json → String
  | .null => "None"
  | .bool true => "True"
  | .bool false => "False"
  | .num n => toString n
  | .str s => s
  | .arr xs => dumpJson (.arr xs)
  | .obj kvs => dumpJson (.obj kvs)

/-- `len(json.dumps(data)) if isinstance(data, (dict, list)) else len(str(data))`. -/
def dataSize (data : Json) : Nat :=
  match data with
  | .obj kvs => (dumpJson (.obj kvs)).length
  | .arr xs => (dumpJson (.arr xs)).length
  | other => (pyStrScalar other).length

def EXTRACTION_SIZE_THRESHOLD : Nat := 500000

def FILTERING_SIZE_THRESHOLD : Nat := 100000

/-- Oracles for one extraction/filtering call: the direct-LLM completion
text, the code-generation completion text, the sandbox outcome keyed by the
generated snippet, and `json.loads`. -/
structure ExtractEnv where
  llmDirect : PyResult String
  llmCodegen : PyResult String
  repl : String → Json
  jsonLoads : String → Option Json

/-- `repl_result.get("status") == "error"`. -/
def statusIsError (kvs : List (String × Json)) : Bool :=
  match List.lookup "status" kvs with
  | some (.str s) => s == "error"
  | _ => false

/-- `isinstance(result, dict) and "error" in result`. -/
def hasErrorKey (j : Json) : Bool :=
  match j with
  | .obj kvs => (List.lookup "error" kvs).isSome
  | _ => false

/-- All ways the sandbox leg of extraction/filtering (and of the function
runner) fails after the sandbox returns `r`: error status, missing or falsy
or non-string `output`, unparseable output, or a parsed `{"error": ...}`
object. -/
def sandboxOutcomeFails (jsonLoads : String → Option Json) (r : Json) : Bool :=
  match r with
  | .obj kvs =>
    statusIsError kvs ||
    (match List.lookup "output" kvs with
     | some (.str s) =>
       s == "" || (match jsonLoads s with
         | none => true
         | some res => hasErrorKey res)
     | some _ => true
     | none => true)
  | _ => true

/-- The sandbox leg shared by `_process_extraction` and `_apply_filtering`:
an error status raises `RuntimeError`, a falsy output raises `ValueError`, a
non-string output makes `json.loads` raise `TypeError` — all caught by the
enclosing handler which returns `data`; a `JSONDecodeError` is returned as
`data` by the inner handler; an `{"error": ...}` object raises, again
yielding `data`; otherwise the parsed output is returned. -/
def replPathResult (jsonLoads : String → Option Json) (r : Json) (data : Json) : Json :=
  match r with
  | .obj kvs =>
    if statusIsError kvs then data
    else
      match List.lookup "output" kvs with
      | some (.str s) =>
        if s == "" then data
        else
          match jsonLoads s with
          | none => data
          | some res => if hasErrorKey res then data else res
      | some _ => data
      | none => data
  | _ => data

/-- The code-fence cleanup applied to a generated snippet:
`text.strip().replace("```python", "").replace("```", "")`. -/
def cleanCodegen (t : String) : String :=
  pyReplace (pyReplace (pyStrip t) "```python" "") "```" ""

/-- The cleanup applied to the direct-extraction completion:
`text.strip().replace("```json\n", "").replace("```", "").replace("\n", "")`. -/
def cleanDirectExtraction (t : String) : String :=
  pyReplace (pyReplace (pyReplace (pyStrip t) "```json\n" "") "```" "") "\n" ""

/-- `MLBAgent._process_extraction` (default 500 000-character threshold). -/
def _process_extraction (env : ExtractEnv) (data : Json) : Json :=
  if dataSize data ≤ EXTRACTION_SIZE_THRESHOLD then
    match env.llmDirect with
    | .exc _ => data
    | .ok t =>
      match env.jsonLoads (cleanDirectExtraction t) with
      | some r => r
      | none => data
  else
    match env.llmCodegen with
    | .exc _ => data
    | .ok t => replPathResult env.jsonLoads (env.repl (cleanCodegen t)) data

/-- `MLBAgent._apply_filtering` (default 100 000-character threshold). -/
def _apply_filtering (env : ExtractEnv) (data : Json) (filteringInfo : String) : Json :=
  if filteringInfo == "" || pyLower filteringInfo == "none" then data
  else if dataSize data ≤ FILTERING_SIZE_THRESHOLD then
    match env.llmDirect with
    | .exc _ => data
    | .ok t =>
      match env.jsonLoads (pyStrip t) with
      | some r => r
      | none => data
  else
    match env.llmCodegen with
    | .exc _ => data
    | .ok t => replPathResult env.jsonLoads (env.repl (cleanCodegen t)) data

/-! ## Code sanitizer (`utils.py`, `sanitize_code` / `fix_try_except_blocks`) -/

/-- `len(line) - len(line.lstrip())`. -/
def leadingWs (l : List Char) : Nat := l.length - (lstripL l).length

/-- `min(levels)` (with 0 for the empty case handled by the caller). -/
def listMin : List Nat → Nat
  | [] => 0
  | x :: rest => rest.foldl Nat.min x

/-- `fix_try_except_blocks`'s line loop, carrying `indent_level`. -/
def fixTryExceptAux : Int → List (List Char) → List (List Char)
  | _, [] => []
  | level, line :: rest =>
    let stripped := stripL line
    if isPrefixList "try:".data stripped then
      line :: fixTryExceptAux (level + 1) rest
    else if isPrefixList "except".data stripped then
      line :: fixTryExceptAux (level - 1 + 1) rest
    else
      let out := if level > 0 && !stripped.isEmpty then
          List.replicate (4 * level.toNat) ' ' ++ stripped
        else line
      let level' :=
        if endsWithChar stripped ':' then level + 1
        else if stripped.isEmpty && level > 0 then 0
        else level
      out :: fixTryExceptAux level' rest

/-- `fix_try_except_blocks`. -/
def fix_try_except_blocks (code : String) : String :=
  String.mk (joinNl (fixTryExceptAux 0 (splitOnNl code.data)))

/-- `sanitize_code`: drop blank lines and trailing whitespace, strip the
minimal common indentation, hoist `import`/`from` lines to the top, then
re-indent try/except blocks. -/
def sanitize_code (code : String) : String :=
  let lines := ((splitOnNl code.data).filter (fun l => !(stripL l).isEmpty)).map rstripL
  let indentationLevels := (lines.map leadingWs).filter (fun n => 0 < n)
  let baseIndent := if indentationLevels.isEmpty then 0 else listMin indentationLevels
  let normalized := lines.filterMap (fun l =>
    if (stripL l).isEmpty then none
    else some (if isPrefixList (List.replicate baseIndent ' ') l then l.drop baseIndent else l))
  let isImport := fun (l : List Char) =>
    isPrefixList "import ".data l || isPrefixList "from ".data l
  let importLines := normalized.filter isImport
  let otherLines := normalized.filter (fun l => !isImport l)
  let finalLines := if importLines.isEmpty then otherLines
    else importLines ++ [[]] ++ otherLines
  fix_try_except_blocks (String.mk (joinNl finalLines))

/-! ## Function Runner and Plan Executor (`agent.py`,
`MLBAgent._execute_function_step`, `MLBAgent._execute_step`,
`MLBAgent.execute_plan`)

The runner's LLM calls and the sandbox are oracles; the snippet cleanup,
sanitisation and result parsing are from the source.  `_execute_fallback`,
which `_execute_step`'s handler invokes for a step declaring a fallback, is
not defined anywhere in the repository — a real call raises
`AttributeError`; it is modelled as an oracle so that statements also cover
that always-raising instance. -/

/-- A plan step as the executor reads it. -/
structure StepM where
  id : String
  type : String
  name : String
  description : String
  parameters : Json
  extract : Option Json
  depends_on : List String
  fallback : Option Json

/-- Oracles for one `_execute_function_step` call: the function catalog's
names, `_resolve_parameters`, the code-generation LLM text
(`_generate_execution_code`'s completion), the sandbox outcome by snippet,
and `json.loads`. -/
structure FnEnv where
  functions : List String
  resolveParams : StepM → List (String × Json) → PyResult Json
  genLLM : PyResult String
  repl : String → Json
  jsonLoads : String → Option Json

/-- The tail of `_generate_execution_code` after the completion returns:
strip code fences and prepend imports when absent. -/
def cleanGeneratedExecutionCode (t : String) : String :=
  let g := pyReplace (pyReplace t "```python" "") "```" ""
  if pyContains g "import statsapi" then g else "import statsapi\nimport json\n" ++ g

/-- The result-processing tail of `_execute_function_step`: error status,
falsy output, parse failure and embedded `{"error": ...}` objects each raise
(the raised exception's message from the source); otherwise the parsed
output is returned. -/
def fnReplParse (jsonLoads : String → Option Json) (r : Json) : PyResult Json :=
  match r with
  | .obj kvs =>
    if statusIsError kvs then .exc "Function execution failed"
    else
      match List.lookup "output" kvs with
      | some (.str s) =>
        if s == "" then .exc "No output from function execution"
        else
          match jsonLoads s with
          | none => .exc "Failed to parse function result"
          | some res => if hasErrorKey res then .exc "Function error" else .ok res
      | some other =>
        .exc (if other.truthy then "TypeError" else "No output from function execution")
      | none => .exc "No output from function execution"
  | _ => .exc "AttributeError"

/-- The `try:` body of `_execute_function_step`. -/
def fnStepBody (env : FnEnv) (step : StepM) (prior : List (String × Json)) :
    PyResult Json := do
  if !env.functions.contains step.name then PyResult.exc "Invalid function"
  else do
    let _resolvedParams ← env.resolveParams step prior
    let generated ← env.genLLM
    let code := sanitize_code (cleanGeneratedExecutionCode generated)
    fnReplParse env.jsonLoads (env.repl code)

/-- `MLBAgent._execute_function_step`: the outer `except Exception` turns
every internal failure into `None`. -/
def _execute_function_step (env : FnEnv) (step : StepM)
    (prior : List (String × Json)) : Option Json :=
  match fnStepBody env step prior with
  | .ok j => some j
  | .exc _ => none

/-- Oracles for `_execute_step`'s dispatch: the two runners, the (missing)
`_execute_fallback`, and `_process_extraction` as invoked by `execute_plan`. -/
structure ExecEnv where
  execFunction : StepM → List (String × Json) → PyResult (Option Json)
  execEndpoint : StepM → List (String × Json) → PyResult (Option Json)
  execFallback : StepM → List (String × Json) → PyResult (Option Json)
  extractStep : Json → Json → Json

/-- `MLBAgent._execute_step`: dispatch on the step type (unknown types yield
`None`); an exception is caught, and only a step declaring a truthy
`fallback` triggers a fallback attempt, whose own failure also yields
`None`. -/
def _execute_step (env : ExecEnv) (step : StepM) (prior : List (String × Json)) :
    Option Json :=
  let attempt :=
    if step.type == "function" then env.execFunction step prior
    else if step.type == "endpoint" then env.execEndpoint step prior
    else .ok none
  match attempt with
  | .ok r => r
  | .exc _ =>
    match step.fallback with
    | some fb =>
      if fb.truthy then
        match env.execFallback step prior with
        | .ok r => r
        | .exc _ => none
      else none
    | none => none

/-- `MLBAgent.execute_plan`'s loop over `plan["steps"]`, accumulating the
results map: a falsy or absent raw result writes no entry; a truthy one is
stored under the step id, through extraction when the step declares
`extract`. -/
def execute_plan (env : ExecEnv) : List StepM → List (String × Json) → List (String × Json)
  | [], results => results
  | step :: rest, results =>
    match _execute_step env step results with
    | none => execute_plan env rest results
    | some raw =>
      if raw.truthy then
        let value := match step.extract with
          | some ex => env.extractStep raw ex
          | none => raw
        execute_plan env rest (setKey results step.id value)
      else execute_plan env rest results

/-- The ids of the steps whose raw `_execute_step` result is truthy, in
execution order (threading the same accumulating results map). -/
def truthyStepIds (env : ExecEnv) : List StepM → List (String × Json) → List String
  | [], _ => []
  | step :: rest, results =>
    match _execute_step env step results with
    | none => truthyStepIds env rest results
    | some raw =>
      if raw.truthy then
        let value := match step.extract with
          | some ex => env.extractStep raw ex
          | none => raw
        step.id :: truthyStepIds env rest (setKey results step.id value)
      else truthyStepIds env rest results

/-- Wiring of the function runner into the executor: `_execute_step` awaits
`_execute_function_step`, which returns normally (its own handler catches
everything), so the executor's view of it is an `ok` result. -/
def fnExecEnv (env : FnEnv)
    (endpointRunner fallbackRunner : StepM → List (String × Json) → PyResult (Option Json))
    (extractRunner : Json → Json → Json) : ExecEnv :=
  ⟨fun s p => .ok (_execute_function_step env s p), endpointRunner, fallbackRunner,
    extractRunner⟩

/-- A three-step scenario: `step2`'s execution raises, the others return
truthy data; no step declares a fallback. -/
def scenarioStep (i : String) : StepM :=
  ⟨i, "function", "schedule", "Get basic MLB data", Json.obj [], none, [], none⟩

def scenarioSteps : List StepM :=
  [scenarioStep "step1", scenarioStep "step2", scenarioStep "step3"]

def scenarioEnv : ExecEnv :=
  ⟨fun step _ => if step.id == "step2" then .exc "boom"
     else .ok (some (Json.obj [("d", Json.num 1)])),
   fun _ _ => .ok none,
   fun _ _ => .exc "AttributeError",
   fun raw _ => raw⟩

/-- A function step whose sandbox run reports `status: "error"` while the
step declares an (enabled, truthy) fallback and the fallback runner would
succeed with truthy data. -/
def c5Repl : String → Json := fun _ =>
  Json.obj [("status", Json.str "error"), ("logs", Json.arr []),
    ("error", Json.str "NameError: name statsapi is not defined"), ("output", Json.null)]

def c5FnEnv : FnEnv :=
  ⟨["standings", "schedule"],
   fun _ _ => .ok (Json.obj [("value", Json.str "leagueId=103,104")]),
   .ok "import statsapi\nimport json\nprint(json.dumps(statsapi.standings()))",
   c5Repl,
   fun _ => none⟩

def c5Step : StepM :=
  ⟨"s1", "function", "standings", "Get standings", Json.obj [("value", Json.str "leagueId=103,104")],
    none, [], some (Json.obj [("enabled", Json.bool true)])⟩

def c5ExecEnv : ExecEnv :=
  fnExecEnv c5FnEnv (fun _ _ => .ok none)
    (fun _ _ => .ok (some (Json.str "fallback-data"))) (fun raw _ => raw)

/-! ## Plan Synthesizer validation (`agent.py`, `MLBAgent.create_data_plan`
and `MLBAgent._create_fallback_plan`)

The LLM's plan generation is an oracle `PyResult PlanV`; the post-generation
validation loops and the deterministic fallback plan are from the source. -/

/-- A parsed retrieval plan: the declared steps and the plan-level
`dependencies` mapping. -/
structure PlanV where
  steps : List StepM
  dependencies : List (String × List String)

/-- The validation performed after generation: every step's `type` is in
`valid_types` (`function`/`endpoint`) and its `name` among the catalog keys
(`valid_methods`); every id listed in the `dependencies` mapping's values
exists among the declared step ids.  A violation raises `ValueError`, which
the enclosing handler converts to the fallback plan. -/
def validate_plan (validNames : List String) (p : PlanV) : Bool :=
  p.steps.all (fun s =>
    (s.type == "function" || s.type == "endpoint") && validNames.contains s.name)
  && p.dependencies.all (fun d =>
    d.2.all (fun depId => p.steps.any (fun s => s.id == depId)))

/-- `intent["intent"]["type"] == "standings"` (the string-valued enum
compares as its value; the records handed in always carry these keys). -/
def intentIsStandings (intent : Json) : Bool :=
  match jget intent "intent" with
  | some i =>
    match jget i "type" with
    | some (.str s) => s == "standings"
    | _ => false
  | none => false

/-- `MLBAgent._create_fallback_plan`, field for field from the source. -/
def _create_fallback_plan (intent : Json) : PlanV :=
  let std := intentIsStandings intent
  ⟨[⟨"basic_data", "function",
      if std then "standings" else "schedule",
      "Get basic MLB data",
      Json.obj [("value", Json.str (if std then "leagueId=103,104" else "sportId=1"))],
      some (Json.obj [("fields", Json.obj [
        ("stats", Json.str (if std then "$.records[*].teamRecords[*]" else "$.dates[*].games[*]")),
        ("info", Json.str (if std then "$.records[*].division" else "$.dates[*].date"))])]),
      [], none⟩],
   []⟩

/-- `MLBAgent.create_data_plan`: a generation exception or a validation
failure discards the generated plan in favour of the fallback plan. -/
def create_data_plan (validNames : List String) (intent : Json)
    (llmPlan : PyResult PlanV) : PlanV :=
  match llmPlan with
  | .exc _ => _create_fallback_plan intent
  | .ok p => if validate_plan validNames p then p else _create_fallback_plan intent

/-- A plan whose single step is well-typed and catalogued and whose
`dependencies` mapping is empty, but whose step's `depends_on` references a
step id that does not exist. -/
def c4BadPlan : PlanV :=
  ⟨[⟨"s1", "function", "standings", "standings lookup",
      Json.obj [("value", Json.str "leagueId=103,104")],
      some (Json.obj []), ["ghost_step"], none⟩],
   []⟩

/-! ## Symbolic-reference resolver (`agent.py`,
`MLBAgent._basic_parameter_resolution`) -/

/-- The resolver's loop over `value[1:].split(".")`: starting from the
prior-results dict, a dict is descended with `.get(part, {})`, anything else
resets the cursor to `{}` and the loop continues with the remaining parts. -/
def refWalk : Json → List String → Json
  | ref, [] => ref
  | ref, part :: rest =>
    match ref with
    | .obj kvs => refWalk ((List.lookup part kvs).getD (.obj [])) rest
    | _ => refWalk (.obj []) rest

/-- Resolution of one parameter value: only a string starting with `"$"` is
treated as a reference; everything else is returned unchanged. -/
def resolveValue (prior : List (String × Json)) (v : Json) : Json :=
  match v with
  | .str s =>
    if isPrefixList "$".data s.data then
      refWalk (.obj prior) ((splitOnCharL '.' (s.data.drop 1)).map String.mk)
    else v
  | _ => v

/-- `MLBAgent._basic_parameter_resolution`. -/
def _basic_parameter_resolution (parameters prior : List (String × Json)) :
    List (String × Json) :=
  parameters.map (fun kv => (kv.1, resolveValue prior kv.2))

/-- Specification-side predicate: the dotted path can be followed through
`ref` (every component is a key of a dict at its level). -/
def pathFollowable : Json → List String → Bool
  | _, [] => true
  | ref, part :: rest =>
    match ref with
    | .obj kvs =>
      match List.lookup part kvs with
      | some v => pathFollowable v rest
      | none => false
    | _ => false

/-- Specification-side reading of a followable dotted path. -/
def getPath : Json → List String → Json
  | ref, [] => ref
  | ref, part :: rest =>
    match ref with
    | .obj kvs =>
      match List.lookup part kvs with
      | some v => getPath v rest
      | none => .obj []
    | _ => .obj []

/-! # Theorems -/

/-- Writing a fresh key appends it to the results map's key list. -/
theorem setKey_keys_of_not_mem (m : List (String × Json)) (k : String) (v : Json)
    (h : k ∉ m.map Prod.fst) :
    (setKey m k v).map Prod.fst = m.map Prod.fst ++ [k] := by
  induction m with
  | nil => rfl
  | cons kv rest ih =>
    simp only [List.map_cons, List.mem_cons] at h
    push_neg at h
    unfold setKey
    rw [if_neg (fun hk => h.1 hk.symm)]
    simp only [List.map_cons, List.cons_append, List.cons.injEq, true_and]
    exact ih h.2

/-- Generalised key characterisation of the executor's loop. -/
theorem execute_plan_keys_aux (env : ExecEnv) :
    ∀ (steps : List StepM) (res : List (String × Json)),
      (res.map Prod.fst ++ steps.map StepM.id).Nodup →
      (execute_plan env steps res).map Prod.fst
        = res.map Prod.fst ++ truthyStepIds env steps res := by
  intro steps
  induction steps with
  | nil => intro res _; simp [execute_plan, truthyStepIds]
  | cons step rest ih =>
    intro res h
    have hsub : (res.map Prod.fst ++ rest.map StepM.id).Nodup := by
      refine h.sublist ?_
      exact (List.sublist_cons_self step.id (rest.map StepM.id)).append_left (res.map Prod.fst)
    unfold execute_plan truthyStepIds
    match hex : _execute_step env step res with
    | none => exact ih res hsub
    | some raw =>
      simp only []
      rcases ht : raw.truthy with _ | _
      · simp only [Bool.false_eq_true, if_false]
        exact ih res hsub
      · simp only [if_true]
        have hid : step.id ∉ res.map Prod.fst := by
          rw [List.nodup_append] at h
          intro hmem
          exact h.2.2 hmem (List.mem_cons_self step.id (rest.map StepM.id))
        have hkeys := setKey_keys_of_not_mem res step.id
          (match step.extract with
            | some ex => env.extractStep raw ex
            | none => raw) hid
        have hnd : ((setKey res step.id
            (match step.extract with
              | some ex => env.extractStep raw ex
              | none => raw)).map Prod.fst ++ rest.map StepM.id).Nodup := by
          rw [hkeys, List.append_assoc, List.singleton_append]
          simpa using h
        have := ih (setKey res step.id
          (match step.extract with
            | some ex => env.extractStep raw ex
            | none => raw)) hnd
        rw [this, hkeys, List.append_assoc, List.singleton_append]

/-- C1: for every plan (with the data model's unique step ids) and every
behaviour of the runners, the executor — a total function, so it never
raises — iterates the steps in order and produces a results map whose
entries are exactly the steps whose raw execution result was truthy: a step
that raises (with no successful fallback) or returns a falsy result is
omitted while all later steps still run, so partial results are always
returned. -/
theorem execute_plan_results_keys (env : ExecEnv) (steps : List StepM)
    (h : (steps.map StepM.id).Nodup) :
    (execute_plan env steps []).map Prod.fst = truthyStepIds env steps [] := by
  simpa using execute_plan_keys_aux env steps [] (by simpa using h)

/-- Witness for C1: in the three-step scenario where `step2` raises without
a fallback, the results map holds exactly `step1` and `step3`. -/
theorem execute_plan_results_keys_witness :
    (execute_plan scenarioEnv scenarioSteps []).map Prod.fst = ["step1", "step3"] :=
  (execute_plan_results_keys scenarioEnv scenarioSteps (by decide)).trans rfl

/-- The monad instance's reduction on a successful bind. -/
theorem PyResult.bind_ok {α β : Type} (v : α) (f : α → PyResult β) :
    (PyResult.ok v >>= f) = f v := rfl

/-- On any of the failing sandbox conditions, the function runner's result
processing raises. -/
theorem fnReplParse_fails (jsonLoads : String → Option Json) (r : Json)
    (h : sandboxOutcomeFails jsonLoads r = true) :
    ∃ m, fnReplParse jsonLoads r = .exc m := by
  unfold sandboxOutcomeFails at h
  unfold fnReplParse
  match r with
  | .null | .bool _ | .num _ | .str _ | .arr _ => exact ⟨"AttributeError", rfl⟩
  | .obj kvs =>
    simp only [Bool.or_eq_true] at h
    rcases h with h | h
    · simp [h]
    · rcases hs : statusIsError kvs with _ | _
      · simp only [hs, if_false, Bool.false_eq_true]
        match ho : List.lookup "output" kvs with
        | none => exact ⟨_, rfl⟩
        | some (.null) | some (.bool _) | some (.num _) | some (.arr _) | some (.obj _) =>
          exact ⟨_, rfl⟩
        | some (.str s) =>
          rw [ho] at h
          simp only [Bool.or_eq_true] at h
          rcases h with h | h
          · simp [h]
          · rcases he : s == "" with _ | _
            · simp only [he, if_false, Bool.false_eq_true]
              match hp : jsonLoads s with
              | none => exact ⟨_, rfl⟩
              | some res =>
                rw [hp] at h
                simp only [] at h
                simp [h]
            · simp [he]
      · simp [hs]

/-- C5 amended: a non-"success" sandbox status, a parse failure on the
captured output, and a parsed `{"error": ...}` object each raise inside
`_execute_function_step`, but that function's own `except Exception` handler
catches the exception and returns `None`; no exception reaches
`_execute_step`'s per-step handler, so the step-level fallback/skip handling
is never invoked for these failures — the step is simply skipped, whatever
fallback it declares and however the fallback runner would behave. -/
theorem function_step_failures_swallowed (env : FnEnv)
    (ep fb : StepM → List (String × Json) → PyResult (Option Json))
    (ex : Json → Json → Json) (step : StepM) (prior : List (String × Json))
    (pv : Json) (gen : String)
    (htype : step.type = "function")
    (hname : env.functions.contains step.name = true)
    (hres : env.resolveParams step prior = .ok pv)
    (hgen : env.genLLM = .ok gen)
    (hfail : sandboxOutcomeFails env.jsonLoads
        (env.repl (sanitize_code (cleanGeneratedExecutionCode gen))) = true) :
    _execute_function_step env step prior = none
    ∧ _execute_step (fnExecEnv env ep fb ex) step prior = none := by
  obtain ⟨m, hm⟩ := fnReplParse_fails env.jsonLoads _ hfail
  have h1 : _execute_function_step env step prior = none := by
    unfold _execute_function_step fnStepBody
    rw [hname]
    simp only [Bool.not_true, Bool.false_eq_true, if_false]
    rw [hres, PyResult.bind_ok, hgen, PyResult.bind_ok, hm]
  refine ⟨h1, ?_⟩
  unfold _execute_step fnExecEnv
  simp [htype, h1]

/-- Witness for the amended C5 at the concrete erroring-sandbox step. -/
theorem function_step_failures_swallowed_witness :
    _execute_function_step c5FnEnv c5Step [] = none
    ∧ _execute_step c5ExecEnv c5Step [] = none :=
  function_step_failures_swallowed c5FnEnv (fun _ _ => .ok none)
    (fun _ _ => .ok (some (Json.str "fallback-data"))) (fun raw _ => raw)
    c5Step [] (Json.obj [("value", Json.str "leagueId=103,104")])
    "import statsapi\nimport json\nprint(json.dumps(statsapi.standings()))"
    rfl rfl rfl rfl (by rfl)

/-- Counterexample to C5 as stated: the sandbox reports an error status, the
step declares an enabled (truthy) fallback, and the fallback runner would
return truthy data — yet the executor's per-step handler sees no exception:
the function runner returns `None`, the step is skipped and the fallback is
never attempted (the executor returns `none`, not the fallback's data). -/
theorem function_step_fallback_not_attempted_cex :
    sandboxOutcomeFails c5FnEnv.jsonLoads (c5Repl "") = true
    ∧ c5Step.fallback = some (Json.obj [("enabled", Json.bool true)])
    ∧ (Json.obj [("enabled", Json.bool true)]).truthy = true
    ∧ c5ExecEnv.execFallback c5Step [] = .ok (some (Json.str "fallback-data"))
    ∧ (Json.str "fallback-data").truthy = true
    ∧ _execute_function_step c5FnEnv c5Step [] = none
    ∧ _execute_step c5ExecEnv c5Step [] = none :=
  ⟨rfl, rfl, rfl, rfl, rfl, rfl, rfl⟩

/-- On any failing sandbox leg, the shared path returns the original data. -/
theorem replPathResult_of_fails (jsonLoads : String → Option Json) (r data : Json)
    (h : sandboxOutcomeFails jsonLoads r = true) :
    replPathResult jsonLoads r data = data := by
  unfold sandboxOutcomeFails at h
  unfold replPathResult
  match r with
  | .null | .bool _ | .num _ | .str _ | .arr _ => rfl
  | .obj kvs =>
    simp only [Bool.or_eq_true] at h
    rcases h with h | h
    · simp [h]
    · rcases hs : statusIsError kvs with _ | _
      · simp only [hs, if_false, Bool.false_eq_true]
        match ho : List.lookup "output" kvs with
        | none => rfl
        | some (.null) | some (.bool _) | some (.num _) | some (.arr _) | some (.obj _) => rfl
        | some (.str s) =>
          rw [ho] at h
          simp only [Bool.or_eq_true] at h
          rcases h with h | h
          · simp [h]
          · rcases he : s == "" with _ | _
            · simp only [he, if_false, Bool.false_eq_true]
              match hp : jsonLoads s with
              | none => rfl
              | some res =>
                rw [hp] at h
                simp only [] at h
                simp [h]
            · simp [he]
      · simp [hs]

/-- C3: for every input value and extraction/filtering spec, when the
underlying LLM call fails, when its answer does not parse, or when the
generated-code sandbox leg fails in any way (error status, missing/falsy
output, unparseable output, embedded error object), `_process_extraction`
and `_apply_filtering` return the original input data unchanged — and, being
total functions, they never raise. -/
theorem extraction_filtering_preserve_data (env : ExtractEnv) (data : Json)
    (finfo e t : String) :
    (dataSize data ≤ EXTRACTION_SIZE_THRESHOLD → env.llmDirect = .exc e →
      _process_extraction env data = data)
    ∧ (dataSize data ≤ EXTRACTION_SIZE_THRESHOLD → env.llmDirect = .ok t →
        env.jsonLoads (cleanDirectExtraction t) = none →
        _process_extraction env data = data)
    ∧ (EXTRACTION_SIZE_THRESHOLD < dataSize data → env.llmCodegen = .exc e →
        _process_extraction env data = data)
    ∧ (EXTRACTION_SIZE_THRESHOLD < dataSize data → env.llmCodegen = .ok t →
        sandboxOutcomeFails env.jsonLoads (env.repl (cleanCodegen t)) = true →
        _process_extraction env data = data)
    ∧ (dataSize data ≤ FILTERING_SIZE_THRESHOLD → env.llmDirect = .exc e →
        _apply_filtering env data finfo = data)
    ∧ (dataSize data ≤ FILTERING_SIZE_THRESHOLD → env.llmDirect = .ok t →
        env.jsonLoads (pyStrip t) = none →
        _apply_filtering env data finfo = data)
    ∧ (FILTERING_SIZE_THRESHOLD < dataSize data → env.llmCodegen = .exc e →
        _apply_filtering env data finfo = data)
    ∧ (FILTERING_SIZE_THRESHOLD < dataSize data → env.llmCodegen = .ok t →
        sandboxOutcomeFails env.jsonLoads (env.repl (cleanCodegen t)) = true →
        _apply_filtering env data finfo = data) := by
  refine ⟨?_, ?_, ?_, ?_, ?_, ?_, ?_, ?_⟩
  · intro hs hd
    simp [_process_extraction, hs, hd]
  · intro hs hd hp
    simp [_process_extraction, hs, hd, hp]
  · intro hs hd
    simp [_process_extraction, Nat.not_le.mpr hs, hd]
  · intro hs hd hf
    simp only [_process_extraction, Nat.not_le.mpr hs, if_false, hd]
    exact replPathResult_of_fails _ _ _ hf
  · intro hs hd
    unfold _apply_filtering
    rcases hg : finfo == "" || pyLower finfo == "none" with _ | _
    · simp [hg, hs, hd]
    · simp [hg]
  · intro hs hd hp
    unfold _apply_filtering
    rcases hg : finfo == "" || pyLower finfo == "none" with _ | _
    · simp [hg, hs, hd, hp]
    · simp [hg]
  · intro hs hd
    unfold _apply_filtering
    rcases hg : finfo == "" || pyLower finfo == "none" with _ | _
    · simp [hg, Nat.not_le.mpr hs, hd]
    · simp [hg]
  · intro hs hd hf
    unfold _apply_filtering
    rcases hg : finfo == "" || pyLower finfo == "none" with _ | _
    · simp only [hg, Bool.false_eq_true, if_false, Nat.not_le.mpr hs, hd]
      exact replPathResult_of_fails _ _ _ hf
    · simp [hg]

/-- Witness for C3: a failing direct-LLM call on a small payload and a
failing code-generation call on the filtering path leave concrete data
untouched. -/
theorem extraction_filtering_preserve_data_witness :
    _process_extraction
        ⟨.exc "429 quota", .exc "429 quota", fun _ => Json.null, fun _ => none⟩
        (Json.obj [("stats", Json.arr [Json.num 7])])
      = Json.obj [("stats", Json.arr [Json.num 7])]
    ∧ _apply_filtering
        ⟨.exc "429 quota", .exc "429 quota", fun _ => Json.null, fun _ => none⟩
        (Json.obj [("stats", Json.arr [Json.num 7])]) "keep only home runs"
      = Json.obj [("stats", Json.arr [Json.num 7])] :=
  ⟨(extraction_filtering_preserve_data
      ⟨.exc "429 quota", .exc "429 quota", fun _ => Json.null, fun _ => none⟩
      (Json.obj [("stats", Json.arr [Json.num 7])]) "keep only home runs" "429 quota" "").1
      (by decide) rfl,
   (extraction_filtering_preserve_data
      ⟨.exc "429 quota", .exc "429 quota", fun _ => Json.null, fun _ => none⟩
      (Json.obj [("stats", Json.arr [Json.num 7])]) "keep only home runs" "429 quota" "").2.2.2.2.1
      (by decide) rfl⟩

/-- The 429 test used throughout the C6/C7 scenarios. -/
theorem is_rate_limit_error_429 : is_rate_limit_error "429 Resource has been exhausted" = true := by
  decide

/-- C2: the Sandboxed Code Runner's call never raises — it is a total
function into result records — and on every failure path it returns a
structured record with status `"error"` and a non-null error string: on
timeout the error is exactly `"Execution timed out after N seconds"` for the
configured timeout `N`; on a non-zero exit it is the stderr text with every
occurrence of the temporary code-file path replaced by the `<analysis>`
placeholder on each line; on a zero exit with unparseable stdout the status
is `"error"` with a fixed message. -/
theorem repl_failure_paths (timeout : Nat) (jsonLoads : String → Option Json)
    (path stdout stderr : String) (rc : Int) (hrc : rc ≠ 0) :
    MLBPythonREPL_call timeout jsonLoads path .timedOut
        = Json.obj [("status", Json.str "error"), ("logs", Json.arr []),
            ("error", Json.str ("Execution timed out after " ++ toString timeout ++ " seconds")),
            ("output", Json.null)]
    ∧ MLBPythonREPL_call timeout jsonLoads path (.completed rc stdout stderr)
        = Json.obj [("status", Json.str "error"), ("logs", Json.arr []),
            ("error", Json.str (cleanStderr path stderr)), ("output", Json.null)]
    ∧ (jsonLoads (pyStrip stdout) = none →
        jget (MLBPythonREPL_call timeout jsonLoads path (.completed 0 stdout stderr)) "status"
            = some (Json.str "error")
        ∧ jget (MLBPythonREPL_call timeout jsonLoads path (.completed 0 stdout stderr)) "error"
            = some (Json.str "Failed to parse execution result")) := by
  refine ⟨rfl, ?_, ?_⟩
  · simp [MLBPythonREPL_call, hrc, stderrResult]
  · intro h
    constructor <;> simp [MLBPythonREPL_call, h, parseFailureResult, jget, List.lookup]

/-- Witness for C2 at a concrete non-zero exit: the temp-file path inside the
stderr text is replaced by the placeholder. -/
theorem repl_failure_paths_witness :
    MLBPythonREPL_call 8 (fun _ => none) "/tmp/d/mlb_analysis.py"
        (.completed 1 "" "File /tmp/d/mlb_analysis.py, line 3")
      = Json.obj [("status", Json.str "error"), ("logs", Json.arr []),
          ("error", Json.str "File <analysis>, line 3"), ("output", Json.null)] :=
  ((repl_failure_paths 8 (fun _ => none) "/tmp/d/mlb_analysis.py" ""
      "File /tmp/d/mlb_analysis.py, line 3" 1 (by decide)).2.1).trans (by rfl)

/-- C10: when the subprocess exits with return code 0 but stdout does not
parse as JSON, the runner returns the fixed record
`{status: "error", logs: [], error: "Failed to parse execution result",
output: null}`. -/
theorem repl_parse_failure_result (timeout : Nat) (jsonLoads : String → Option Json)
    (path stdout stderr : String) (h : jsonLoads (pyStrip stdout) = none) :
    MLBPythonREPL_call timeout jsonLoads path (.completed 0 stdout stderr)
      = Json.obj [("status", Json.str "error"), ("logs", Json.arr []),
          ("error", Json.str "Failed to parse execution result"), ("output", Json.null)] := by
  simp [MLBPythonREPL_call, h, parseFailureResult]

/-- Witness for C10 at a concrete unparseable stdout. -/
theorem repl_parse_failure_result_witness :
    MLBPythonREPL_call 8 (fun _ => none) "p" (.completed 0 "not json" "")
      = Json.obj [("status", Json.str "error"), ("logs", Json.arr []),
          ("error", Json.str "Failed to parse execution result"), ("output", Json.null)] :=
  repl_parse_failure_result 8 (fun _ => none) "p" "not json" "" rfl

/-- Counterexample to C6 as stated: with every model raising a 429 error,
`generate_with_fallback` raises the last model's rate-limit error, which is
not the terminal `"All models exhausted"` failure the claim promises. -/
theorem exhausted_hierarchy_message_cex :
    generate_with_fallback all429Env 0 = .exc "429 Resource has been exhausted"
    ∧ "429 Resource has been exhausted" ≠ "All models exhausted" := by
  constructor
  · rw [generate_with_fallback]
    simp only [all429Env, is_rate_limit_error_429, numModels, GEMINI_MODELS]
    norm_num
    rw [generate_with_fallback]
    simp only [all429Env, is_rate_limit_error_429, numModels, GEMINI_MODELS]
    norm_num
    rw [generate_with_fallback]
    simp only [all429Env, is_rate_limit_error_429, numModels, GEMINI_MODELS]
    norm_num
    rw [generate_with_fallback]
    simp only [all429Env, is_rate_limit_error_429, numModels, GEMINI_MODELS]
    norm_num
  · decide

/-- C6 amended: when every model in the hierarchy fails with a
rate-limit-class error, `generate_with_fallback` started at the top of the
hierarchy raises the LAST model's rate-limit error (a single terminal
failure, but carrying the 429 message); the `"All models exhausted"` error
is raised exactly when the call starts at an index past the hierarchy. -/
theorem exhausted_hierarchy_raises_last_429 (env : Nat → PyResult String)
    (e0 e1 e2 e3 : String)
    (h0 : env 0 = .exc e0) (h1 : env 1 = .exc e1)
    (h2 : env 2 = .exc e2) (h3 : env 3 = .exc e3)
    (r0 : is_rate_limit_error e0 = true) (r1 : is_rate_limit_error e1 = true)
    (r2 : is_rate_limit_error e2 = true) (r3 : is_rate_limit_error e3 = true) :
    generate_with_fallback env 0 = .exc e3
    ∧ generate_with_fallback env numModels = .exc "All models exhausted" := by
  constructor
  · rw [generate_with_fallback]
    simp only [h0, r0, numModels, GEMINI_MODELS]
    norm_num
    rw [generate_with_fallback]
    simp only [h1, r1, numModels, GEMINI_MODELS]
    norm_num
    rw [generate_with_fallback]
    simp only [h2, r2, numModels, GEMINI_MODELS]
    norm_num
    rw [generate_with_fallback]
    simp only [h3, r3, numModels, GEMINI_MODELS]
    norm_num
  · rw [generate_with_fallback]
    simp [numModels, GEMINI_MODELS]

/-- Witness for the amended C6 at the all-429 hierarchy. -/
theorem exhausted_hierarchy_raises_last_429_witness :
    generate_with_fallback all429Env 0 = .exc "429 Resource has been exhausted"
    ∧ generate_with_fallback all429Env numModels = .exc "All models exhausted" :=
  exhausted_hierarchy_raises_last_429 all429Env _ _ _ _ rfl rfl rfl rfl
    is_rate_limit_error_429 is_rate_limit_error_429 is_rate_limit_error_429
    is_rate_limit_error_429

/-- C7: the `retry=` callable the source hands to tenacity is evaluated on a
`RetryCallState`, never on an exception, so it returns `false` and the
configured 4-attempt exponential backoff never performs a retry: a call
whose underlying model raises a rate-limit-class 429 error (third conjunct)
makes exactly one attempt (second conjunct) before the model-downgrade logic
and the caller see the exception. -/
theorem tenacity_retry_never_fires :
    rateLimitPredicate .retryCallState = false
    ∧ tenacityCall 4 rateLimitPredicate (fun _ => .exc "429 Resource has been exhausted")
        = (.exc "429 Resource has been exhausted", 1)
    ∧ is_rate_limit_error "429 Resource has been exhausted" = true :=
  ⟨rfl, rfl, by decide⟩

/-- C8: on an exception during intent classification (shown for a raising
LLM call and for an unparseable LLM response), `analyze_intent` returns the
hard-coded default record without raising; in that record the intent type is
`conversation`, `context.requires_data` is `false` and every entity category
is an empty list — but the record's flag key is `"mlb_query"`, and the
`"is_mlb_related"` field required by the declared `IntentAnalysis` schema
and read by `process_message` is absent. -/
theorem default_intent_missing_is_mlb_related :
    analyze_intent (.exc "503 network unreachable") (fun _ => none) = defaultIntent
    ∧ analyze_intent (.ok "garbage") (fun _ => none) = defaultIntent
    ∧ jget defaultIntent "is_mlb_related" = none
    ∧ jget defaultIntent "mlb_query" = some (.bool false)
    ∧ ((jget defaultIntent "intent").bind (fun j => jget j "type")) = some (.str "conversation")
    ∧ ((jget defaultIntent "context").bind (fun j => jget j "requires_data"))
        = some (.bool false)
    ∧ (jget defaultIntent "entities")
        = some (.obj [("teams", .arr []), ("players", .arr []), ("dates", .arr []),
            ("stats", .arr []), ("locations", .arr []), ("events", .arr [])]) :=
  ⟨rfl, rfl, rfl, rfl, rfl, rfl, rfl⟩

/-- Counterexample to C4 as stated: a plan whose step's `depends_on` names a
non-existent step id (second conjunct) passes validation and is NOT replaced
by the fallback plan (first and third conjuncts) — only the plan-level
`dependencies` mapping is checked, never the steps' `depends_on` lists. -/
theorem plan_validation_misses_depends_on_cex :
    create_data_plan ["standings", "schedule"] defaultIntent (.ok c4BadPlan) = c4BadPlan
    ∧ (c4BadPlan.steps.all (fun s => s.depends_on.all
        (fun d => c4BadPlan.steps.any (fun s2 => s2.id == d)))) = false
    ∧ (create_data_plan ["standings", "schedule"] defaultIntent (.ok c4BadPlan)).steps.map
          StepM.id
        ≠ (_create_fallback_plan defaultIntent).steps.map StepM.id :=
  ⟨rfl, rfl, by decide⟩

/-- C4 amended: validation checks each step's type against
{function, endpoint}, each step's name against the catalog, and each id
referenced in the plan-level `dependencies` mapping against the declared
steps — but not the steps' `depends_on` lists (final conjunct: rewriting
every `depends_on` arbitrarily never changes the verdict).  A generation
exception or a validation failure is replaced by the deterministic fallback
plan (standings intent → the standings function, otherwise the schedule
function), the fallback generator is a pure function of the intent (hence
idempotent), and its plan passes validation whenever the catalog contains
`standings` and `schedule`. -/
theorem plan_validation_amended (validNames : List String) (intent : Json)
    (p : PlanV) (e : String) (f : StepM → List String) :
    create_data_plan validNames intent (.exc e) = _create_fallback_plan intent
    ∧ (validate_plan validNames p = false →
        create_data_plan validNames intent (.ok p) = _create_fallback_plan intent)
    ∧ (validate_plan validNames p = true →
        create_data_plan validNames intent (.ok p) = p)
    ∧ (validNames.contains "standings" = true → validNames.contains "schedule" = true →
        validate_plan validNames (_create_fallback_plan intent) = true)
    ∧ validate_plan validNames
        ⟨p.steps.map (fun s =>
            ⟨s.id, s.type, s.name, s.description, s.parameters, s.extract, f s, s.fallback⟩),
          p.dependencies⟩
      = validate_plan validNames p := by
  refine ⟨rfl, ?_, ?_, ?_, ?_⟩
  · intro hv
    simp [create_data_plan, hv]
  · intro hv
    simp [create_data_plan, hv]
  · intro h1 h2
    have h1' : "standings" ∈ validNames := by simpa using h1
    have h2' : "schedule" ∈ validNames := by simpa using h2
    unfold validate_plan _create_fallback_plan
    rcases hstd : intentIsStandings intent with _ | _ <;> simp [hstd, h1', h2']
  · unfold validate_plan
    simp only [List.all_map, List.any_map]
    rfl

/-- Witness for the amended C4: the fallback plan for the default intent
passes validation against a catalog holding both fallback functions, so
handing it back to `create_data_plan` keeps it unchanged. -/
theorem plan_validation_amended_witness :
    create_data_plan ["standings", "schedule"] defaultIntent
        (.ok (_create_fallback_plan defaultIntent)) = _create_fallback_plan defaultIntent :=
  (plan_validation_amended ["standings", "schedule"] defaultIntent
      (_create_fallback_plan defaultIntent) "e" (fun _ => [])).2.2.1
    ((plan_validation_amended ["standings", "schedule"] defaultIntent
        (_create_fallback_plan defaultIntent) "e" (fun _ => [])).2.2.2.1 rfl rfl)

/-- Walking from an empty dict always ends at an empty dict. -/
theorem refWalk_empty (parts : List String) : refWalk (Json.obj []) parts = Json.obj [] := by
  induction parts with
  | nil => rfl
  | cons part rest ih => simpa [refWalk] using ih

/-- C9: `_basic_parameter_resolution` maps each parameter independently
(final conjunct); a value that is not a `"$"`-prefixed string is returned
unchanged; a `"$"`-prefixed string is resolved by walking the dotted path
through the prior results, yielding the referenced value when every
component can be followed and the empty mapping `{}` the moment any
component is missing or met on a non-dict — in particular the resolver is a
total function and never raises on a missing reference. -/
theorem basic_parameter_resolution_spec :
    (∀ (ref : Json) (parts : List String),
        pathFollowable ref parts = false → refWalk ref parts = Json.obj [])
    ∧ (∀ (ref : Json) (parts : List String),
        pathFollowable ref parts = true → refWalk ref parts = getPath ref parts)
    ∧ (∀ (prior : List (String × Json)) (v : Json),
        (∀ s, v = Json.str s → isPrefixList "$".data s.data = false) →
        resolveValue prior v = v)
    ∧ (∀ (prior : List (String × Json)) (s : String),
        isPrefixList "$".data s.data = true →
        pathFollowable (Json.obj prior)
            ((splitOnCharL '.' (s.data.drop 1)).map String.mk) = false →
        resolveValue prior (Json.str s) = Json.obj [])
    ∧ (∀ (prior : List (String × Json)) (s : String),
        isPrefixList "$".data s.data = true →
        pathFollowable (Json.obj prior)
            ((splitOnCharL '.' (s.data.drop 1)).map String.mk) = true →
        resolveValue prior (Json.str s)
          = getPath (Json.obj prior) ((splitOnCharL '.' (s.data.drop 1)).map String.mk))
    ∧ (∀ (params prior : List (String × Json)),
        _basic_parameter_resolution params prior
          = params.map (fun kv => (kv.1, resolveValue prior kv.2))) := by
  have hbroken : ∀ (parts : List String) (ref : Json),
      pathFollowable ref parts = false → refWalk ref parts = Json.obj [] := by
    intro parts
    induction parts with
    | nil => intro ref h; simp [pathFollowable] at h
    | cons part rest ih =>
      intro ref h
      match ref with
      | .null | .bool _ | .num _ | .str _ | .arr _ => exact refWalk_empty rest
      | .obj kvs =>
        have h' : (match List.lookup part kvs with
            | some v => pathFollowable v rest
            | none => false) = false := h
        have hg : refWalk (Json.obj kvs) (part :: rest)
            = refWalk ((List.lookup part kvs).getD (Json.obj [])) rest := rfl
        rw [hg]
        match hl : List.lookup part kvs with
        | some v =>
          rw [hl] at h'
          exact ih v h'
        | none =>
          exact refWalk_empty rest
  have hfollow : ∀ (parts : List String) (ref : Json),
      pathFollowable ref parts = true → refWalk ref parts = getPath ref parts := by
    intro parts
    induction parts with
    | nil => intro ref _; rfl
    | cons part rest ih =>
      intro ref h
      match ref with
      | .null | .bool _ | .num _ | .str _ | .arr _ => exact Bool.noConfusion h
      | .obj kvs =>
        have h' : (match List.lookup part kvs with
            | some v => pathFollowable v rest
            | none => false) = true := h
        have hg : refWalk (Json.obj kvs) (part :: rest)
            = refWalk ((List.lookup part kvs).getD (Json.obj [])) rest := rfl
        have hr : getPath (Json.obj kvs) (part :: rest)
            = (match List.lookup part kvs with
               | some v => getPath v rest
               | none => Json.obj []) := rfl
        rw [hg, hr]
        match hl : List.lookup part kvs with
        | some v =>
          rw [hl] at h'
          exact ih v h'
        | none =>
          rw [hl] at h'
          exact Bool.noConfusion h'
  refine ⟨fun ref parts => hbroken parts ref, fun ref parts => hfollow parts ref, ?_, ?_, ?_, ?_⟩
  · intro prior v hv
    match v with
    | .null | .bool _ | .num _ | .arr _ | .obj _ => rfl
    | .str s =>
      have heq : resolveValue prior (Json.str s)
          = (if isPrefixList "$".data s.data = true then
              refWalk (Json.obj prior) ((splitOnCharL '.' (s.data.drop 1)).map String.mk)
            else Json.str s) := rfl
      rw [heq, hv s rfl]
      simp
  · intro prior s hpre hbrk
    have heq : resolveValue prior (Json.str s)
        = (if isPrefixList "$".data s.data = true then
            refWalk (Json.obj prior) ((splitOnCharL '.' (s.data.drop 1)).map String.mk)
          else Json.str s) := rfl
    rw [heq, hpre]
    simpa using hbroken _ _ hbrk
  · intro prior s hpre hfol
    have heq : resolveValue prior (Json.str s)
        = (if isPrefixList "$".data s.data = true then
            refWalk (Json.obj prior) ((splitOnCharL '.' (s.data.drop 1)).map String.mk)
          else Json.str s) := rfl
    rw [heq, hpre]
    simpa using hfollow _ _ hfol
  · intro params prior
    rfl

/-- Witness for C9: a missing tail component resolves to `{}`, a followable
reference resolves to the referenced value, and a non-reference value is
kept unchanged. -/
theorem basic_parameter_resolution_spec_witness :
    resolveValue [("step1", Json.obj [("player_ids", Json.arr [Json.num 660271])])]
        (Json.str "$step1.missing") = Json.obj []
    ∧ resolveValue [("step1", Json.obj [("player_ids", Json.arr [Json.num 660271])])]
        (Json.str "$step1.player_ids") = Json.arr [Json.num 660271]
    ∧ resolveValue [("step1", Json.obj [("player_ids", Json.arr [Json.num 660271])])]
        (Json.num 42) = Json.num 42 :=
  ⟨basic_parameter_resolution_spec.2.2.2.1
      [("step1", Json.obj [("player_ids", Json.arr [Json.num 660271])])]
      "$step1.missing" rfl rfl,
   (basic_parameter_resolution_spec.2.2.2.2.1
      [("step1", Json.obj [("player_ids", Json.arr [Json.num 660271])])]
      "$step1.player_ids" rfl rfl).trans rfl,
   basic_parameter_resolution_spec.2.2.1
      [("step1", Json.obj [("player_ids", Json.arr [Json.num 660271])])]
      (Json.num 42) (fun _ h => nomatch h)⟩

end BallTales

